import Mathlib

/-!
Verification of the ArangoDB–cuGraph adapter (`adbcug_adapter`)

A shallow embedding of `adbcug_adapter/adapter.py` and
`adbcug_adapter/controller.py` in Lean 4, together with theorems settling the
behavioural claims about the two conversion pipelines:

* ArangoDB → cuGraph (`arangodb_to_cugraph` and its wrappers), and
* cuGraph → ArangoDB (`cugraph_to_arangodb`).

The two external engines (the ArangoDB server and the cuGraph GPU library) are
opaque collaborators: a database is modelled as a map from collection names to
document lists, and the created cuGraph graph is modelled by the edge list the
adapter hands to `from_cudf_edgelist`.  Progress bars and logging are elided.
Python exceptions (`KeyError`, `ValueError`, `NotImplementedError`,
`IndexError`) become an explicit error type threaded through `Except`.
-/

namespace ADBCUG

/-- JSON-ish scalar values stored in ArangoDB documents and used as cuGraph
edge weights.  (Only the constructors the adapter's data paths can observe are
modelled.) -/
inductive JsonVal where
  | str (s : String)
  | num (n : Int)
  deriving DecidableEq, Repr

/-- An ArangoDB document (`Json = Dict[str, Any]`): an association list of
fields, in insertion order, with unique keys (Python `dict`). -/
abbrev Doc := List (String × JsonVal)

/-- Total lookup `d[k]`: the value of the first field named `k`. -/
def Doc.get : Doc → String → Option JsonVal
  | [], _ => none
  | (k, v) :: rest, key => if k = key then some v else Doc.get rest key

/-- Python's `d.get(k, default)`. -/
def Doc.getD (d : Doc) (k : String) (v : JsonVal) : JsonVal :=
  (d.get k).getD v

/-- Lookup `d[k]` where the code's type annotation promises a string (`_id`, `_from`,
`_to`): `none` models the `KeyError` on a missing field. -/
def Doc.getStr (d : Doc) (k : String) : Option String :=
  match d.get k with
  | some (JsonVal.str s) => some s
  | _ => none

/-- A cuGraph node identifier
(`CUGId = Union[int, float, bool, str, Tuple[Any, ...]]`; the variants the
adapter itself produces or inspects are numbers and strings). -/
inductive CUGId where
  | str (s : String)
  | num (n : Int)
  deriving DecidableEq, Repr

/-- The Python exceptions the adapter's data paths can raise. -/
inductive Err where
  /-- Python `KeyError` on the given string key. -/
  | keyError (k : String)
  /-- Python `KeyError` on the given cuGraph node id (a `cug_map` lookup). -/
  | keyErrorCug (k : CUGId)
  /-- Python `ValueError`; the payload records the offending collection name from the
  message `"... identified as '{col}', which is not in ..."`. -/
  | valueError (col : String)
  /-- Python `NotImplementedError` from the default controller; the payload records
  the number of candidate collections mentioned in the message. -/
  | notImplementedError (n : Nat)
  /-- Python `IndexError` (out-of-range list or series access). -/
  | indexError
  deriving DecidableEq, Repr

/-- The map `adb_map : Dict[str, CUGId]` — maps ArangoDB vertex `_id`s to cuGraph node
ids.  The vertex pipeline only ever stores strings
(`cug_id: str = adb_v["_id"]`), so values are strings. -/
def AdbMap := String → Option String

/-- The empty `dict()`. -/
def AdbMap.empty : AdbMap := fun _ => none

/-- Assignment `adb_map[k] = v`. -/
def AdbMap.update (m : AdbMap) (k v : String) : AdbMap :=
  fun k' => if k' = k then some v else m k'

/-- The map `cug_map : Dict[CUGId, str]` — maps cuGraph node ids to ArangoDB vertex
`_id`s. -/
def CugMap := CUGId → Option String

/-- The empty `dict()`. -/
def CugMap.empty : CugMap := fun _ => none

/-- Assignment `cug_map[k] = v`. -/
def CugMap.update (m : CugMap) (k : CUGId) (v : String) : CugMap :=
  fun k' => if k' = k then some v else m k'

/-- One entry of the to-be-inserted cuGraph edge list (coo format):
`Tuple[CUGId, CUGId, Any]`, where both endpoints come out of `adb_map`. -/
abbrev CugEdge := String × String × JsonVal

/-- The cuGraph graph, as far as the adapter determines it: the edge list
passed to `from_cudf_edgelist` together with the weight column name.  The
engine's internal representation is out of scope. -/
structure CugGraph where
  edges : List CugEdge
  edgeAttr : String
  deriving DecidableEq, Repr

/-!
The controller (`controller.py` / `abc.py`)

`ADBCUG_Controller` is a policy object with overridable hooks.  A controller
is modelled as a bundle of functions; the identification hooks return
`Except Err String` because the default implementations raise.
-/

/-- The hook bundle of an `ADBCUG_Controller` (or a user subclass). -/
structure Controller where
  prepare_arangodb_vertex : Doc → String → Doc
  identify_cugraph_node : CUGId → List String → Except Err String
  identify_cugraph_edge : CUGId → CUGId → CugMap → List String → Except Err String
  keyify_cugraph_node : Nat → CUGId → String → String
  keyify_cugraph_edge : Nat → CUGId → CUGId → CugMap → String → String
  prepare_cugraph_node : Doc → String → Doc
  prepare_cugraph_edge : Doc → String → Doc

/-- The set `Abstract_ADBCUG_Controller.VALID_KEY_CHARS` (`abc.py`). -/
def VALID_KEY_CHARS : List Char :=
  ['_', '-', ':', '.', '@', '(', ')', '+', ',', '=', ';', '$', '!', '*', '\'', '%']

/-- The per-character test of `_string_to_arangodb_key_helper`:
`s.isalnum() or s in self.VALID_KEY_CHARS` (alphanumeric modelled over the
ASCII range). -/
def keyCharOk (c : Char) : Bool :=
  c.isAlphanum || VALID_KEY_CHARS.contains c

/-- Embeds `ADBCUG_Controller._string_to_arangodb_key_helper`: builds `res` by
appending every character that passes the validity test. -/
def string_to_arangodb_key_helper : List Char → List Char
  | [] => []
  | c :: rest =>
    if keyCharOk c then c :: string_to_arangodb_key_helper rest
    else string_to_arangodb_key_helper rest

/-- Python `str(i)` on a loop counter. -/
def natKey (i : Nat) : String := toString i

/-- The default `ADBCUG_Controller`: the prepare hooks are `pass`, the
identify hooks unconditionally raise `NotImplementedError` (the message cites
`len(adb_v_cols)` resp. `len(adb_e_cols)`), and the keyify hooks return
`str(i)`. -/
def defaultController : Controller where
  prepare_arangodb_vertex := fun d _ => d
  identify_cugraph_node := fun _ adb_v_cols =>
    .error (.notImplementedError adb_v_cols.length)
  identify_cugraph_edge := fun _ _ _ adb_e_cols =>
    .error (.notImplementedError adb_e_cols.length)
  keyify_cugraph_node := fun i _ _ => natKey i
  keyify_cugraph_edge := fun i _ _ _ _ => natKey i
  prepare_cugraph_node := fun d _ => d
  prepare_cugraph_edge := fun d _ => d

/-!
ArangoDB → cuGraph (`arangodb_to_cugraph` and helpers)
-/

/-- The ArangoDB database, as the export path sees it: the documents of each
collection, in cursor order (`FOR doc IN @@col RETURN doc`). -/
def Database := String → List Doc

/-- An `ADBMetagraph`: the listed vertex and edge collections, in dict
insertion order.  (The per-collection attribute sets are ignored by the code:
`for v_col, _ in metagraph["vertexCollections"].items()`.) -/
structure Metagraph where
  vertexCollections : List String
  edgeCollections : List String

/-- Embeds `__process_adb_vertex`: read `adb_v["_id"]`, let the controller prepare
the vertex, re-read `adb_v["_id"]` as the cuGraph node id, and store
`adb_map[adb_id] = cug_id`. -/
def process_adb_vertex (cntrl : Controller) (adb_v : Doc) (v_col : String)
    (adb_map : AdbMap) : Except Err AdbMap :=
  match adb_v.getStr "_id" with
  | none => .error (.keyError "_id")
  | some adb_id =>
    let adb_v' := cntrl.prepare_arangodb_vertex adb_v v_col
    match adb_v'.getStr "_id" with
    | none => .error (.keyError "_id")
    | some cug_id => .ok (adb_map.update adb_id cug_id)

/-- Embeds `__process_adb_edge`: look the edge's `_from` and `_to` up in `adb_map`
(`KeyError` when absent) and append one coo tuple with weight
`adb_e.get(edge_attr, default_edge_attr_value)`. -/
def process_adb_edge (adb_e : Doc) (adb_map : AdbMap)
    (cug_edges : List CugEdge) (edge_attr : String)
    (default_edge_attr_value : Int) : Except Err (List CugEdge) :=
  match adb_e.getStr "_from" with
  | none => .error (.keyError "_from")
  | some f =>
    match adb_map f with
    | none => .error (.keyError f)
    | some from_node_id =>
      match adb_e.getStr "_to" with
      | none => .error (.keyError "_to")
      | some t =>
        match adb_map t with
        | none => .error (.keyError t)
        | some to_node_id =>
          .ok (cug_edges ++
            [(from_node_id, to_node_id,
              adb_e.getD edge_attr (.num default_edge_attr_value))])

/-- The inner cursor loop of the vertex phase: `__process_adb_cursor` driving
`__process_adb_vertex` over every document of one vertex collection. -/
def process_v_docs (cntrl : Controller) (docs : List Doc) (v_col : String)
    (adb_map : AdbMap) : Except Err AdbMap :=
  match docs with
  | [] => .ok adb_map
  | d :: rest =>
    match process_adb_vertex cntrl d v_col adb_map with
    | .error e => .error e
    | .ok m' => process_v_docs cntrl rest v_col m'

/-- The `for v_col, _ in metagraph["vertexCollections"].items()` loop of
`arangodb_to_cugraph`. -/
def process_v_cols (cntrl : Controller) (db : Database) (cols : List String)
    (adb_map : AdbMap) : Except Err AdbMap :=
  match cols with
  | [] => .ok adb_map
  | c :: rest =>
    match process_v_docs cntrl (db c) c adb_map with
    | .error e => .error e
    | .ok m' => process_v_cols cntrl db rest m'

/-- The inner cursor loop of the edge phase: `__process_adb_cursor` driving
`__process_adb_edge` over every document of one edge collection. -/
def process_e_docs (docs : List Doc) (adb_map : AdbMap)
    (cug_edges : List CugEdge) (edge_attr : String)
    (default_edge_attr_value : Int) : Except Err (List CugEdge) :=
  match docs with
  | [] => .ok cug_edges
  | d :: rest =>
    match process_adb_edge d adb_map cug_edges edge_attr
        default_edge_attr_value with
    | .error e => .error e
    | .ok es' => process_e_docs rest adb_map es' edge_attr
        default_edge_attr_value

/-- The `for e_col, _ in metagraph["edgeCollections"].items()` loop of
`arangodb_to_cugraph`. -/
def process_e_cols (db : Database) (cols : List String) (adb_map : AdbMap)
    (cug_edges : List CugEdge) (edge_attr : String)
    (default_edge_attr_value : Int) : Except Err (List CugEdge) :=
  match cols with
  | [] => .ok cug_edges
  | c :: rest =>
    match process_e_docs (db c) adb_map cug_edges edge_attr
        default_edge_attr_value with
    | .error e => .error e
    | .ok es' => process_e_cols db rest adb_map es' edge_attr
        default_edge_attr_value

/-- Embeds `__create_cug_graph`: hand the accumulated coo list to
`from_cudf_edgelist` with `edge_attr` as the weight column. -/
def create_cug_graph (edge_attr : String) (cug_edges : List CugEdge) :
    CugGraph :=
  { edges := cug_edges, edgeAttr := edge_attr }

/-- Embeds `ADBCUG_Adapter.arangodb_to_cugraph`: process every listed vertex
collection, then every listed edge collection, then build the graph.  (The
`name` argument is only logged and is omitted.) -/
def arangodb_to_cugraph (cntrl : Controller) (db : Database)
    (metagraph : Metagraph) (edge_attr : String := "weights")
    (default_edge_attr_value : Int := 0) : Except Err CugGraph :=
  match process_v_cols cntrl db metagraph.vertexCollections AdbMap.empty with
  | .error e => .error e
  | .ok adb_map =>
    match process_e_cols db metagraph.edgeCollections adb_map []
        edge_attr default_edge_attr_value with
    | .error e => .error e
    | .ok cug_edges => .ok (create_cug_graph edge_attr cug_edges)

/-- Embeds `ADBCUG_Adapter.arangodb_collections_to_cugraph`: build a metagraph with
empty attribute sets over the given collections and delegate.  Faithful to the
source, the delegating call passes only `name, metagraph, edge_attr` — the
`default_edge_attr_value` argument is dropped, so the callee's default `0` is
used. -/
def arangodb_collections_to_cugraph (cntrl : Controller) (db : Database)
    (v_cols : List String) (e_cols : List String)
    (edge_attr : String := "weights")
    (default_edge_attr_value : Int := 0) : Except Err CugGraph :=
  let metagraph : Metagraph :=
    { vertexCollections := v_cols, edgeCollections := e_cols }
  arangodb_to_cugraph cntrl db metagraph edge_attr

/-!
cuGraph → ArangoDB (`cugraph_to_arangodb` and helpers)
-/

/-- The buffer `adb_docs : DefaultDict[str, List[Json]]` — the to-be-inserted documents,
keyed by collection, in first-touch order (Python dict order). -/
abbrev Buffer := List (String × List Doc)

/-- Lookup `adb_docs[col]` (keys present in the buffer). -/
def buf_get : Buffer → String → List Doc
  | [], _ => []
  | (c, ds) :: rest, col => if c = col then ds else buf_get rest col

/-- Append `adb_docs[col].append(d)` on the defaultdict: extend the existing entry,
or create a new one at the end. -/
def buf_append (buf : Buffer) (col : String) (d : Doc) : Buffer :=
  match buf with
  | [] => [(col, [d])]
  | (c, ds) :: rest =>
    if c = col then (c, ds ++ [d]) :: rest
    else (c, ds) :: buf_append rest col d

/-- Deletion `del adb_docs[col]`: remove the (first) entry for `col`. -/
def buf_erase : Buffer → String → Buffer
  | [], _ => []
  | (c, ds) :: rest, col => if c = col then rest else (c, ds) :: buf_erase rest col

/-- One `import_bulk` call: the target collection and the submitted document
list. -/
abbrev Submission := String × List Doc

/-- The `for col in adb_cols` loop of `__insert_adb_docs`: submit each
collection's buffered list to `import_bulk`, then `del adb_docs[col]`. -/
def insert_adb_docs_go (adb_cols : List String) (adb_docs : Buffer)
    (subs : List Submission) : List Submission × Buffer :=
  match adb_cols with
  | [] => (subs, adb_docs)
  | col :: rest =>
    let doc_list := buf_get adb_docs col
    insert_adb_docs_go rest (buf_erase adb_docs col) (subs ++ [(col, doc_list)])

/-- Embeds `__insert_adb_docs`: return immediately on an empty buffer; otherwise walk
`list(adb_docs.keys())`, submitting and deleting each entry.  Returns the
`import_bulk` submissions made and the buffer left behind. -/
def insert_adb_docs (adb_docs : Buffer) : List Submission × Buffer :=
  if adb_docs.length = 0 then ([], adb_docs)
  else insert_adb_docs_go (adb_docs.map Prod.fst) adb_docs []

/-- Embeds `__process_cug_node`: resolve the target vertex collection (first listed
collection when the graph has exactly one, the controller's answer otherwise,
with a `ValueError` guard), build `{"_id": col/key, "_key": key}`, record the
mapping in `cug_map`, let the controller prepare the document, and append it
to the buffer.  The appended document is also returned, for specification
purposes. -/
def process_cug_node (cntrl : Controller) (i : Nat) (cug_id : CUGId)
    (cug_map : CugMap) (adb_docs : Buffer) (adb_v_cols : List String)
    (has_one_v_col : Bool) : Except Err (CugMap × Buffer × Doc) :=
  let colE : Except Err String :=
    if has_one_v_col then
      match adb_v_cols[0]? with
      | some c => .ok c
      | none => .error .indexError
    else cntrl.identify_cugraph_node cug_id adb_v_cols
  match colE with
  | .error e => .error e
  | .ok col =>
    if !has_one_v_col && !(adb_v_cols.contains col) then
      .error (.valueError col)
    else
      let key := cntrl.keyify_cugraph_node i cug_id col
      let adb_id := col ++ "/" ++ key
      let cug_node : Doc := [("_id", .str adb_id), ("_key", .str key)]
      let cug_map' := cug_map.update cug_id adb_id
      let cug_node' := cntrl.prepare_cugraph_node cug_node col
      .ok (cug_map', buf_append adb_docs col cug_node', cug_node')

/-- Embeds `__process_cug_edge`: resolve the target edge collection (as for nodes),
derive the key, look both endpoints up in `cug_map` (`KeyError` when absent),
attach the weight when the graph is weighted, prepare, and append.  The
appended document is also returned, for specification purposes. -/
def process_cug_edge (cntrl : Controller) (i : Nat)
    (from_node_id to_node_id : CUGId) (cug_map : CugMap) (adb_docs : Buffer)
    (adb_e_cols : List String) (has_one_e_col : Bool) (edge_attr : String)
    (cug_weights : Option (List JsonVal)) : Except Err (Buffer × Doc) :=
  let colE : Except Err String :=
    if has_one_e_col then
      match adb_e_cols[0]? with
      | some c => .ok c
      | none => .error .indexError
    else cntrl.identify_cugraph_edge from_node_id to_node_id cug_map adb_e_cols
  match colE with
  | .error e => .error e
  | .ok col =>
    if !has_one_e_col && !(adb_e_cols.contains col) then
      .error (.valueError col)
    else
      let key := cntrl.keyify_cugraph_edge i from_node_id to_node_id cug_map col
      match cug_map from_node_id with
      | none => .error (.keyErrorCug from_node_id)
      | some from_adb =>
        match cug_map to_node_id with
        | none => .error (.keyErrorCug to_node_id)
        | some to_adb =>
          let cug_edge : Doc :=
            [("_key", .str key), ("_from", .str from_adb), ("_to", .str to_adb)]
          let weightedE : Except Err Doc :=
            match cug_weights with
            | none => .ok cug_edge
            | some ws =>
              match ws[i]? with
              | some w => .ok (cug_edge ++ [(edge_attr, w)])
              | none => .error .indexError
          match weightedE with
          | .error e => .error e
          | .ok ce =>
            let cug_edge' := cntrl.prepare_cugraph_edge ce col
            .ok (buf_append adb_docs col cug_edge', cug_edge')

/-- Observable control-flow events of a `cugraph_to_arangodb` run: a node or
edge processed, or a call to `__insert_adb_docs` with the submissions it
made. -/
inductive Event where
  | procNode
  | procEdge
  | flushCall (subs : List Submission)
  deriving DecidableEq, Repr

/-- The evolving state of a `cugraph_to_arangodb` run.  `subs`, `events` and
`appended` are observation logs (submissions made, control-flow trace, and
every document ever appended to the buffer); the code state proper is
`cug_map` and `adb_docs`. -/
structure RunState where
  cug_map : CugMap
  adb_docs : Buffer
  subs : List Submission
  events : List Event
  appended : List Doc

/-- A call site of `__insert_adb_docs`: run it on the buffer and log the
submissions. -/
def flushState (st : RunState) : RunState :=
  let (new_subs, buf') := insert_adb_docs st.adb_docs
  { st with
    adb_docs := buf',
    subs := st.subs ++ new_subs,
    events := st.events ++ [.flushCall new_subs] }

/-- Python `batch_size or len(...)`: Python `or` falls back to the length when
`batch_size` is `None` (or `0`, which is falsy). -/
def batchOr (batch_size : Option Nat) (n : Nat) : Nat :=
  match batch_size with
  | none => n
  | some b => if b = 0 then n else b

/-- The `for i, cug_id in enumerate(cug_nodes, 1)` loop: process each node,
then flush whenever `i % node_batch_size == 0` (with `i` counting from 1). -/
def cug_node_loop (cntrl : Controller) (adb_v_cols : List String)
    (has_one_v_col : Bool) (node_batch_size : Nat) (nodes : List CUGId)
    (i : Nat) (st : RunState) : Except Err RunState :=
  match nodes with
  | [] => .ok st
  | cug_id :: rest =>
    match process_cug_node cntrl i cug_id st.cug_map st.adb_docs adb_v_cols
        has_one_v_col with
    | .error e => .error e
    | .ok (m', buf', doc) =>
      let st' : RunState :=
        { st with
          cug_map := m',
          adb_docs := buf',
          events := st.events ++ [.procNode],
          appended := st.appended ++ [doc] }
      let st'' := if i % node_batch_size == 0 then flushState st' else st'
      cug_node_loop cntrl adb_v_cols has_one_v_col node_batch_size rest
        (i + 1) st''

/-- The `for i in range(len(cug_edges))` loop: process each edge, then flush
whenever `i % edge_batch_size == 0` (with `i` counting from 0). -/
def cug_edge_loop (cntrl : Controller) (adb_e_cols : List String)
    (has_one_e_col : Bool) (edge_batch_size : Nat) (edge_attr : String)
    (cug_weights : Option (List JsonVal)) (edges : List (CUGId × CUGId))
    (i : Nat) (st : RunState) : Except Err RunState :=
  match edges with
  | [] => .ok st
  | (from_node_id, to_node_id) :: rest =>
    match process_cug_edge cntrl i from_node_id to_node_id st.cug_map
        st.adb_docs adb_e_cols has_one_e_col edge_attr cug_weights with
    | .error e => .error e
    | .ok (buf', doc) =>
      let st' : RunState :=
        { st with
          adb_docs := buf',
          events := st.events ++ [.procEdge],
          appended := st.appended ++ [doc] }
      let st'' := if i % edge_batch_size == 0 then flushState st' else st'
      cug_edge_loop cntrl adb_e_cols has_one_e_col edge_batch_size edge_attr
        cug_weights rest (i + 1) st''

/-- Embeds `ADBCUG_Adapter.cugraph_to_arangodb`, after `__create_adb_graph`: the
graph's vertex/edge collections, the node list (`cug_graph.nodes()`), the
edge list (`view_edge_list`, as source/destination pairs), and the weight
series (`cug_edges[edge_attr]` when weighted, else `None`) are inputs; the
result is the final run state.  Nodes are looped over with a 1-based counter
and a flush after the loop, then edges with a 0-based counter and a flush
after the loop. -/
def cugraph_to_arangodb (cntrl : Controller)
    (adb_v_cols adb_e_cols : List String) (cug_nodes : List CUGId)
    (cug_edges : List (CUGId × CUGId)) (cug_weights : Option (List JsonVal))
    (batch_size : Option Nat := none) (edge_attr : String := "weights") :
    Except Err RunState :=
  let has_one_v_col := adb_v_cols.length == 1
  let has_one_e_col := adb_e_cols.length == 1
  let node_batch_size := batchOr batch_size cug_nodes.length
  let st0 : RunState :=
    { cug_map := CugMap.empty, adb_docs := [], subs := [], events := [],
      appended := [] }
  match cug_node_loop cntrl adb_v_cols has_one_v_col node_batch_size
      cug_nodes 1 st0 with
  | .error e => .error e
  | .ok st1 =>
    let st2 := flushState st1
    let edge_batch_size := batchOr batch_size cug_edges.length
    match cug_edge_loop cntrl adb_e_cols has_one_e_col edge_batch_size
        edge_attr cug_weights cug_edges 0 st2 with
    | .error e => .error e
    | .ok st3 => .ok (flushState st3)

/-!
Helper lemmas
-/

/-- The character-collecting loop of `_string_to_arangodb_key_helper` is a
filter. -/
theorem key_helper_eq_filter (s : List Char) :
    string_to_arangodb_key_helper s = s.filter keyCharOk := by
  induction s with
  | nil => rfl
  | cons c rest ih =>
    by_cases h : keyCharOk c = true
    · simp [string_to_arangodb_key_helper, List.filter, h, ih]
    · simp [string_to_arangodb_key_helper, List.filter,
        Bool.eq_false_iff.mpr h, ih]

/-!
Claims
-/

/-- Claim C10: `_string_to_arangodb_key_helper` returns the subsequence of its
input consisting of exactly the characters that are alphanumeric or in
`VALID_KEY_CHARS`, in order; its output contains only such characters, and it
is idempotent. -/
theorem claim_C10_key_helper (s : List Char) :
    string_to_arangodb_key_helper s = s.filter keyCharOk ∧
    (string_to_arangodb_key_helper s).all keyCharOk = true ∧
    string_to_arangodb_key_helper (string_to_arangodb_key_helper s) =
      string_to_arangodb_key_helper s := by
  refine ⟨key_helper_eq_filter s, ?_, ?_⟩
  · rw [key_helper_eq_filter, List.all_eq_true]
    intro c hc
    exact (List.mem_filter.mp hc).2
  · rw [key_helper_eq_filter s, key_helper_eq_filter]
    rw [List.filter_eq_self.mpr]
    intro c hc
    exact (List.mem_filter.mp hc).2

/-- Claim C1: For every edge document whose `_from`/`_to` resolve through
`adb_map`, `__process_adb_edge` appends exactly one coo tuple
`(adb_map[_from], adb_map[_to], w)` to the edge list, where `w` is the
document's `edge_attr` value when present and `default_edge_attr_value`
otherwise. -/
theorem claim_C1_edge_translation (adb_e : Doc) (adb_map : AdbMap)
    (cug_edges : List CugEdge) (edge_attr : String) (dflt : Int)
    (f t fn tn : String)
    (hf : adb_e.getStr "_from" = some f) (hmf : adb_map f = some fn)
    (ht : adb_e.getStr "_to" = some t) (hmt : adb_map t = some tn) :
    process_adb_edge adb_e adb_map cug_edges edge_attr dflt =
      .ok (cug_edges ++ [(fn, tn, adb_e.getD edge_attr (.num dflt))]) ∧
    (∀ w, adb_e.get edge_attr = some w →
      adb_e.getD edge_attr (.num dflt) = w) ∧
    (adb_e.get edge_attr = none →
      adb_e.getD edge_attr (.num dflt) = .num dflt) := by
  refine ⟨?_, ?_, ?_⟩
  · simp [process_adb_edge, hf, hmf, ht, hmt]
  · intro w hw
    simp [Doc.getD, hw]
  · intro hw
    simp [Doc.getD, hw]

/-- Witness for C1 at a concrete edge document. -/
theorem claim_C1_edge_translation_witness :
    process_adb_edge
      [("_id", .str "E/1"), ("_from", .str "V/1"), ("_to", .str "V/2")]
      (AdbMap.empty.update "V/2" "V/2" |>.update "V/1" "V/1")
      [] "weights" 7 =
      .ok [("V/1", "V/2", JsonVal.num 7)] := by
  have h := claim_C1_edge_translation
    [("_id", .str "E/1"), ("_from", .str "V/1"), ("_to", .str "V/2")]
    (AdbMap.empty.update "V/2" "V/2" |>.update "V/1" "V/1")
    [] "weights" 7 "V/1" "V/2" "V/1" "V/2"
    (by decide) (by simp [AdbMap.update, AdbMap.empty]) (by decide)
    (by simp [AdbMap.update, AdbMap.empty])
  exact h.1

/-- Claim C5: During `arangodb_to_cugraph`, an edge document whose `_from` or
`_to` is not a key of `adb_map` makes `__process_adb_edge` raise a missing-key
error (the `KeyError` of `adb_map[...]`), rather than skipping the edge or
substituting a value. -/
theorem claim_C5_missing_vertex_raises (adb_e : Doc) (adb_map : AdbMap)
    (cug_edges : List CugEdge) (edge_attr : String) (dflt : Int)
    (f : String) (hf : adb_e.getStr "_from" = some f) :
    (adb_map f = none →
      process_adb_edge adb_e adb_map cug_edges edge_attr dflt =
        .error (.keyError f)) ∧
    (∀ fn t, adb_map f = some fn → adb_e.getStr "_to" = some t →
      adb_map t = none →
      process_adb_edge adb_e adb_map cug_edges edge_attr dflt =
        .error (.keyError t)) := by
  constructor
  · intro hm
    simp [process_adb_edge, hf, hm]
  · intro fn t hmf ht hmt
    simp [process_adb_edge, hf, hmf, ht, hmt]

/-- Witness for C5: an edge pointing at an unlisted vertex errors. -/
theorem claim_C5_missing_vertex_raises_witness :
    process_adb_edge
      [("_from", .str "V/9"), ("_to", .str "V/1")]
      AdbMap.empty [] "weights" 0 =
      .error (.keyError "V/9") := by
  have h := claim_C5_missing_vertex_raises
    [("_from", .str "V/9"), ("_to", .str "V/1")]
    AdbMap.empty [] "weights" 0 "V/9" (by decide)
  exact h.1 rfl

/-- Monotonicity: `__process_adb_vertex` never removes entries from `adb_map`. -/
theorem process_adb_vertex_mono (cntrl : Controller) (d : Doc) (col : String)
    (m m' : AdbMap) (h : process_adb_vertex cntrl d col m = .ok m')
    (k : String) (hk : (m k).isSome = true) : (m' k).isSome = true := by
  unfold process_adb_vertex at h
  cases h1 : d.getStr "_id" with
  | none => rw [h1] at h; cases h
  | some adb_id =>
    rw [h1] at h
    cases h2 : (cntrl.prepare_arangodb_vertex d col).getStr "_id" with
    | none => simp only [h2] at h; cases h
    | some cug_id =>
      simp only [h2] at h
      cases h
      simp only [AdbMap.update]
      split
      · rfl
      · exact hk

/-- Coverage: `__process_adb_vertex` records an entry for the processed vertex's
original `_id`. -/
theorem process_adb_vertex_adds (cntrl : Controller) (d : Doc) (col : String)
    (m m' : AdbMap) (h : process_adb_vertex cntrl d col m = .ok m')
    (id : String) (hid : d.getStr "_id" = some id) :
    (m' id).isSome = true := by
  unfold process_adb_vertex at h
  rw [hid] at h
  cases h2 : (cntrl.prepare_arangodb_vertex d col).getStr "_id" with
  | none => simp only [h2] at h; cases h
  | some cug_id =>
    simp only [h2] at h
    cases h
    simp [AdbMap.update]

/-- After one vertex collection's cursor loop, `adb_map` keeps all previous
entries and has one for every document of the collection. -/
theorem process_v_docs_inv (cntrl : Controller) (docs : List Doc)
    (col : String) (m m' : AdbMap)
    (h : process_v_docs cntrl docs col m = .ok m') :
    (∀ k, (m k).isSome = true → (m' k).isSome = true) ∧
    (∀ d ∈ docs, ∀ id, d.getStr "_id" = some id →
      (m' id).isSome = true) := by
  induction docs generalizing m with
  | nil =>
    unfold process_v_docs at h
    cases h
    exact ⟨fun _ hk => hk, fun d hd => absurd hd (List.not_mem_nil d)⟩
  | cons d rest ih =>
    unfold process_v_docs at h
    cases h1 : process_adb_vertex cntrl d col m with
    | error e => rw [h1] at h; cases h
    | ok m1 =>
      rw [h1] at h
      obtain ⟨ihmono, ihcov⟩ := ih m1 h
      refine ⟨fun k hk => ihmono k (process_adb_vertex_mono cntrl d col m m1 h1 k hk), ?_⟩
      intro d' hd' id hid
      rcases List.mem_cons.mp hd' with hEq | hMem
      · rw [hEq] at hid
        exact ihmono id (process_adb_vertex_adds cntrl d col m m1 h1 id hid)
      · exact ihcov d' hMem id hid

/-- After the whole vertex phase, `adb_map` keeps all previous entries and
has one for every vertex of every listed vertex collection. -/
theorem process_v_cols_inv (cntrl : Controller) (db : Database)
    (cols : List String) (m m' : AdbMap)
    (h : process_v_cols cntrl db cols m = .ok m') :
    (∀ k, (m k).isSome = true → (m' k).isSome = true) ∧
    (∀ c ∈ cols, ∀ d ∈ db c, ∀ id, d.getStr "_id" = some id →
      (m' id).isSome = true) := by
  induction cols generalizing m with
  | nil =>
    unfold process_v_cols at h
    cases h
    exact ⟨fun _ hk => hk, fun c hc => absurd hc (List.not_mem_nil c)⟩
  | cons c rest ih =>
    unfold process_v_cols at h
    cases h1 : process_v_docs cntrl (db c) c m with
    | error e => rw [h1] at h; cases h
    | ok m1 =>
      rw [h1] at h
      obtain ⟨ihmono, ihcov⟩ := ih m1 h
      obtain ⟨dmono, dcov⟩ := process_v_docs_inv cntrl (db c) c m m1 h1
      refine ⟨fun k hk => ihmono k (dmono k hk), ?_⟩
      intro c' hc' d hd id hid
      rcases List.mem_cons.mp hc' with hEq | hMem
      · rw [hEq] at hd
        exact ihmono id (dcov d hd id hid)
      · exact ihcov c' hMem d hd id hid

/-- Claim C4: `arangodb_to_cugraph` runs the whole vertex phase first; the edge
phase is run with the map resulting from it, and the graph is created only
from the edge phase's output.  When any edge document is translated, `adb_map`
already has an entry for every vertex of every listed vertex collection. -/
theorem claim_C4_vertices_before_edges (cntrl : Controller) (db : Database)
    (vcols ecols : List String) (attr : String) (dflt : Int) (m : AdbMap)
    (col : String) (d : Doc) (id : String)
    (hm : process_v_cols cntrl db vcols AdbMap.empty = .ok m)
    (hc : col ∈ vcols) (hd : d ∈ db col)
    (hid : d.getStr "_id" = some id) :
    (m id).isSome = true ∧
    arangodb_to_cugraph cntrl db ⟨vcols, ecols⟩ attr dflt =
      (process_e_cols db ecols m [] attr dflt).map (create_cug_graph attr) := by
  constructor
  · exact (process_v_cols_inv cntrl db vcols AdbMap.empty m hm).2 col hc d hd id hid
  · unfold arangodb_to_cugraph
    dsimp only
    rw [hm]
    cases h2 : process_e_cols db ecols m [] attr dflt <;>
      simp [h2, Except.map]

/-- Witness for C4 on a one-vertex database. -/
theorem claim_C4_vertices_before_edges_witness :
    ((AdbMap.empty.update "V/1" "V/1") "V/1").isSome = true ∧
    arangodb_to_cugraph defaultController
      (fun c => if c = "V" then [[("_id", JsonVal.str "V/1")]] else [])
      ⟨["V"], []⟩ "weights" 0 =
      (process_e_cols
        (fun c => if c = "V" then [[("_id", JsonVal.str "V/1")]] else [])
        [] (AdbMap.empty.update "V/1" "V/1") [] "weights" 0).map
        (create_cug_graph "weights") :=
  claim_C4_vertices_before_edges defaultController
    (fun c => if c = "V" then [[("_id", JsonVal.str "V/1")]] else [])
    ["V"] [] "weights" 0 (AdbMap.empty.update "V/1" "V/1") "V"
    [("_id", JsonVal.str "V/1")] "V/1"
    rfl (by decide) (by decide) (by decide)

/-- Claim C7: With the default controller (whose `_prepare_arangodb_vertex` is
a no-op), `__process_adb_vertex` uses the vertex document's `_id` itself as
the cuGraph node id, and `adb_map` maps that `_id` to itself. -/
theorem claim_C7_identity_mapping (adb_v : Doc) (v_col : String)
    (adb_map : AdbMap) (id : String) (h : adb_v.getStr "_id" = some id) :
    process_adb_vertex defaultController adb_v v_col adb_map =
      .ok (adb_map.update id id) ∧
    (adb_map.update id id) id = some id := by
  constructor
  · simp [process_adb_vertex, defaultController, h]
  · simp [AdbMap.update]

/-- Witness for C7 at a concrete vertex document. -/
theorem claim_C7_identity_mapping_witness :
    process_adb_vertex defaultController [("_id", .str "account/7")] "account"
      AdbMap.empty =
      .ok (AdbMap.empty.update "account/7" "account/7") ∧
    (AdbMap.empty.update "account/7" "account/7") "account/7" =
      some "account/7" :=
  claim_C7_identity_mapping [("_id", .str "account/7")] "account"
    AdbMap.empty "account/7" (by decide)

/-- Shows `(l.length == 1) = false` once `l` has at least two elements (the
`has_one_v_col` / `has_one_e_col` flags of `cugraph_to_arangodb`). -/
theorem length_beq_one_false {α : Type} {l : List α} (h : 2 ≤ l.length) :
    (l.length == 1) = false := by
  simp only [beq_eq_false_iff_ne, ne_eq]
  omega

/-- A user-defined controller that resolves every node to collection `"W"`
and every edge to collection `"F"`; used to exercise the heterogeneous
branches. -/
def twoColController : Controller :=
  { defaultController with
    identify_cugraph_node := fun _ _ => .ok "W",
    identify_cugraph_edge := fun _ _ _ _ => .ok "F" }

/-- Claim C2: In `cugraph_to_arangodb`'s per-item processing: with exactly one
vertex collection the node goes to it without consulting the controller (the
result does not depend on `_identify_cugraph_node`); with several, the
collection is the controller's answer, and a `ValueError` is raised when that
answer is not a listed vertex collection.  The same holds for edges with
`_identify_cugraph_edge` and the edge collections.  (The edge success cases
are stated for an unweighted graph; collection resolution does not look at
weights.) -/
theorem claim_C2_collection_resolution (cntrl : Controller) (i : Nat)
    (cug_id : CUGId) (m : CugMap) (buf : Buffer) (c : String)
    (vcols : List String) (col : String) (j : Nat) (f t : CUGId)
    (m2 : CugMap) (buf2 : Buffer) (ecols : List String) (ecol : String)
    (attr : String) (ws : Option (List JsonVal)) (fa ta : String) :
    (process_cug_node cntrl i cug_id m buf [c]
        (([c] : List String).length == 1) =
      .ok (m.update cug_id (c ++ "/" ++ cntrl.keyify_cugraph_node i cug_id c),
        buf_append buf c (cntrl.prepare_cugraph_node
          [("_id", .str (c ++ "/" ++ cntrl.keyify_cugraph_node i cug_id c)),
           ("_key", .str (cntrl.keyify_cugraph_node i cug_id c))] c),
        cntrl.prepare_cugraph_node
          [("_id", .str (c ++ "/" ++ cntrl.keyify_cugraph_node i cug_id c)),
           ("_key", .str (cntrl.keyify_cugraph_node i cug_id c))] c)) ∧
    (2 ≤ vcols.length → cntrl.identify_cugraph_node cug_id vcols = .ok col →
      vcols.contains col = true →
      process_cug_node cntrl i cug_id m buf vcols (vcols.length == 1) =
        .ok (m.update cug_id
            (col ++ "/" ++ cntrl.keyify_cugraph_node i cug_id col),
          buf_append buf col (cntrl.prepare_cugraph_node
            [("_id", .str (col ++ "/" ++ cntrl.keyify_cugraph_node i cug_id col)),
             ("_key", .str (cntrl.keyify_cugraph_node i cug_id col))] col),
          cntrl.prepare_cugraph_node
            [("_id", .str (col ++ "/" ++ cntrl.keyify_cugraph_node i cug_id col)),
             ("_key", .str (cntrl.keyify_cugraph_node i cug_id col))] col)) ∧
    (2 ≤ vcols.length → cntrl.identify_cugraph_node cug_id vcols = .ok col →
      vcols.contains col = false →
      process_cug_node cntrl i cug_id m buf vcols (vcols.length == 1) =
        .error (.valueError col)) ∧
    (m2 f = some fa → m2 t = some ta →
      process_cug_edge cntrl j f t m2 buf2 [c]
          (([c] : List String).length == 1) attr none =
        .ok (buf_append buf2 c (cntrl.prepare_cugraph_edge
            [("_key", .str (cntrl.keyify_cugraph_edge j f t m2 c)),
             ("_from", .str fa), ("_to", .str ta)] c),
          cntrl.prepare_cugraph_edge
            [("_key", .str (cntrl.keyify_cugraph_edge j f t m2 c)),
             ("_from", .str fa), ("_to", .str ta)] c)) ∧
    (2 ≤ ecols.length →
      cntrl.identify_cugraph_edge f t m2 ecols = .ok ecol →
      ecols.contains ecol = true → m2 f = some fa → m2 t = some ta →
      process_cug_edge cntrl j f t m2 buf2 ecols (ecols.length == 1)
          attr none =
        .ok (buf_append buf2 ecol (cntrl.prepare_cugraph_edge
            [("_key", .str (cntrl.keyify_cugraph_edge j f t m2 ecol)),
             ("_from", .str fa), ("_to", .str ta)] ecol),
          cntrl.prepare_cugraph_edge
            [("_key", .str (cntrl.keyify_cugraph_edge j f t m2 ecol)),
             ("_from", .str fa), ("_to", .str ta)] ecol)) ∧
    (2 ≤ ecols.length →
      cntrl.identify_cugraph_edge f t m2 ecols = .ok ecol →
      ecols.contains ecol = false →
      process_cug_edge cntrl j f t m2 buf2 ecols (ecols.length == 1)
          attr ws =
        .error (.valueError ecol)) := by
  refine ⟨?_, ?_, ?_, ?_, ?_, ?_⟩
  · rfl
  · intro h2 hidf hcon
    have hc' : col ∈ vcols := by simpa using hcon
    rw [length_beq_one_false h2]
    simp [process_cug_node, hidf, hc']
  · intro h2 hidf hcon
    have hc' : col ∉ vcols := by simpa using hcon
    rw [length_beq_one_false h2]
    simp [process_cug_node, hidf, hc']
  · intro hmf hmt
    simp [process_cug_edge, hmf, hmt]
  · intro h2 hidf hcon hmf hmt
    have hc' : ecol ∈ ecols := by simpa using hcon
    rw [length_beq_one_false h2]
    simp [process_cug_edge, hidf, hc', hmf, hmt]
  · intro h2 hidf hcon
    have hc' : ecol ∉ ecols := by simpa using hcon
    rw [length_beq_one_false h2]
    simp [process_cug_edge, hidf, hc']

/-- Witness for C2: a two-vertex-collection node resolved by the controller,
and an edge whose controller answer is not a listed edge collection. -/
theorem claim_C2_collection_resolution_witness :
    (2 ≤ (["V", "W"] : List String).length) ∧
    process_cug_node twoColController 1 (CUGId.num 7) CugMap.empty []
        ["V", "W"] ((["V", "W"] : List String).length == 1) =
      .ok (CugMap.empty.update (CUGId.num 7) "W/1",
        [("W", [[("_id", JsonVal.str "W/1"), ("_key", JsonVal.str "1")]])],
        [("_id", JsonVal.str "W/1"), ("_key", JsonVal.str "1")]) ∧
    process_cug_edge twoColController 0 (CUGId.num 7) (CUGId.num 8)
        CugMap.empty [] ["E", "G"] ((["E", "G"] : List String).length == 1)
        "weights" none =
      .error (.valueError "F") := by
  have h := claim_C2_collection_resolution twoColController 1 (CUGId.num 7)
    CugMap.empty [] "V" ["V", "W"] "W" 0 (CUGId.num 7) (CUGId.num 8)
    CugMap.empty [] ["E", "G"] "F" "weights" none "x" "y"
  exact ⟨by decide, h.2.1 (by decide) rfl (by decide),
    h.2.2.2.2.2 (by decide) rfl (by decide)⟩

/-- With a single listed vertex collection (`has_one_v_col = true`),
`__process_cug_node` always succeeds and never consults the controller's
identification hook. -/
theorem process_cug_node_single (cntrl : Controller) (i : Nat)
    (cug_id : CUGId) (m : CugMap) (buf : Buffer) (c : String) :
    process_cug_node cntrl i cug_id m buf [c] true =
      .ok (m.update cug_id (c ++ "/" ++ cntrl.keyify_cugraph_node i cug_id c),
        buf_append buf c (cntrl.prepare_cugraph_node
          [("_id", .str (c ++ "/" ++ cntrl.keyify_cugraph_node i cug_id c)),
           ("_key", .str (cntrl.keyify_cugraph_node i cug_id c))] c),
        cntrl.prepare_cugraph_node
          [("_id", .str (c ++ "/" ++ cntrl.keyify_cugraph_node i cug_id c)),
           ("_key", .str (cntrl.keyify_cugraph_node i cug_id c))] c) := rfl

/-- The node loop always succeeds on a single-vertex-collection graph. -/
theorem cug_node_loop_single_ok (cntrl : Controller) (c : String) (nbs : Nat)
    (nodes : List CUGId) : ∀ (i : Nat) (st : RunState),
    ∃ st', cug_node_loop cntrl [c] true nbs nodes i st = .ok st' := by
  induction nodes with
  | nil => exact fun i st => ⟨st, rfl⟩
  | cons n rest ih =>
    intro i st
    unfold cug_node_loop
    rw [process_cug_node_single]
    exact ih (i + 1) _

/-- With several vertex collections, the default controller's
`_identify_cugraph_node` raises `NotImplementedError` from
`__process_cug_node`. -/
theorem process_cug_node_default_multi {vcols : List String}
    (h : 2 ≤ vcols.length) (i : Nat) (cug_id : CUGId) (m : CugMap)
    (buf : Buffer) :
    process_cug_node defaultController i cug_id m buf vcols
        (vcols.length == 1) =
      .error (.notImplementedError vcols.length) := by
  rw [length_beq_one_false h]
  rfl

/-- With several edge collections, the default controller's
`_identify_cugraph_edge` raises `NotImplementedError` from
`__process_cug_edge`. -/
theorem process_cug_edge_default_multi {ecols : List String}
    (h : 2 ≤ ecols.length) (j : Nat) (f t : CUGId) (m : CugMap)
    (buf : Buffer) (attr : String) (ws : Option (List JsonVal)) :
    process_cug_edge defaultController j f t m buf ecols
        (ecols.length == 1) attr ws =
      .error (.notImplementedError ecols.length) := by
  rw [length_beq_one_false h]
  rfl

/-- Claim C6: With the default `ADBCUG_Controller`, `cugraph_to_arangodb`
raises `NotImplementedError` at the first node when the target graph has two
or more vertex collections, and at the first edge when it has two or more
edge collections (with one vertex collection, so the node phase completes). -/
theorem claim_C6_default_controller_raises (vcols ecols : List String)
    (c : String) (x : CUGId) (nodes rest : List CUGId) (f t : CUGId)
    (erest edges : List (CUGId × CUGId)) (ws : Option (List JsonVal))
    (bs : Option Nat) (attr : String) :
    (2 ≤ vcols.length →
      cugraph_to_arangodb defaultController vcols ecols (x :: rest) edges ws
          bs attr =
        .error (.notImplementedError vcols.length)) ∧
    (2 ≤ ecols.length →
      cugraph_to_arangodb defaultController [c] ecols nodes ((f, t) :: erest)
          ws bs attr =
        .error (.notImplementedError ecols.length)) := by
  constructor
  · intro h2
    simp [cugraph_to_arangodb, cug_node_loop,
      process_cug_node_default_multi h2]
  · intro h2
    obtain ⟨st1, h1⟩ := cug_node_loop_single_ok defaultController c
      (batchOr bs nodes.length) nodes 1
      { cug_map := CugMap.empty, adb_docs := [], subs := [], events := [],
        appended := [] }
    simp [cugraph_to_arangodb, h1, cug_edge_loop,
      process_cug_edge_default_multi h2]

/-- Witness for C6: two vertex collections kill the first node; two edge
collections kill the first edge. -/
theorem claim_C6_default_controller_raises_witness :
    (2 ≤ (["V", "W"] : List String).length) ∧
    cugraph_to_arangodb defaultController ["V", "W"] ["E", "G"]
        [CUGId.num 1] [] none none "weights" =
      .error (.notImplementedError 2) ∧
    cugraph_to_arangodb defaultController ["V"] ["E", "G"] []
        [(CUGId.num 1, CUGId.num 1)] none none "weights" =
      .error (.notImplementedError 2) := by
  have h := claim_C6_default_controller_raises ["V", "W"] ["E", "G"] "V"
    (CUGId.num 1) [] [] (CUGId.num 1) (CUGId.num 1) [] [] none none
    "weights"
  exact ⟨by decide, h.1 (by decide), h.2 (by decide)⟩

/-- Walking all of the buffer's keys while submitting and deleting each entry
returns exactly the buffer's entries and leaves nothing behind. -/
theorem insert_adb_docs_go_spec (buf : Buffer) :
    ∀ subs, insert_adb_docs_go (buf.map Prod.fst) buf subs =
      (subs ++ buf, []) := by
  induction buf with
  | nil => intro subs; simp [insert_adb_docs_go]
  | cons p rest ih =>
    intro subs
    obtain ⟨c, ds⟩ := p
    simp [insert_adb_docs_go, buf_get, buf_erase, ih]

/-- Each `__insert_adb_docs` call submits each buffered collection's list once and
empties the buffer. -/
theorem insert_adb_docs_spec (buf : Buffer) :
    insert_adb_docs buf = (buf, []) := by
  unfold insert_adb_docs
  split
  · rename_i h
    rw [List.length_eq_zero.mp h]
  · rw [insert_adb_docs_go_spec]
    simp

/-- All documents contained in a submission list (or buffer), in order. -/
def docsOf (l : List Submission) : List Doc :=
  (l.map Prod.snd).flatten

/-- The function `docsOf` distributes over concatenation. -/
theorem docsOf_append (a b : List Submission) :
    docsOf (a ++ b) = docsOf a ++ docsOf b := by
  simp [docsOf]

/-- Appending one document to the buffer adds exactly that document (up to
order across collections). -/
theorem buf_append_docsOf (buf : Buffer) (col : String) (d : Doc) :
    List.Perm (docsOf (buf_append buf col d)) (docsOf buf ++ [d]) := by
  induction buf with
  | nil => simp [buf_append, docsOf]
  | cons p rest ih =>
    obtain ⟨c, ds⟩ := p
    by_cases h : c = col
    · subst h
      simp only [buf_append, if_pos, docsOf, List.map_cons,
        List.flatten_cons]
      rw [List.append_assoc, List.append_assoc]
      exact List.Perm.append_left ds List.perm_append_comm
    · simp only [buf_append, if_neg h, docsOf, List.map_cons,
        List.flatten_cons]
      rw [List.append_assoc]
      exact List.Perm.append_left ds (by simpa [docsOf] using ih)

/-- Conservation: the documents submitted so far plus those still buffered
are, as a multiset, exactly the documents appended so far. -/
def conserved (st : RunState) : Prop :=
  List.Perm (docsOf st.subs ++ docsOf st.adb_docs) st.appended

/-- What one `__insert_adb_docs` call site does to the run state. -/
theorem flushState_eq (st : RunState) :
    flushState st =
      { st with
        adb_docs := [],
        subs := st.subs ++ st.adb_docs,
        events := st.events ++ [.flushCall st.adb_docs] } := by
  unfold flushState
  rw [insert_adb_docs_spec]

/-- Flushing preserves conservation. -/
theorem flushState_conserved (st : RunState) (h : conserved st) :
    conserved (flushState st) := by
  rw [flushState_eq]
  unfold conserved at h ⊢
  simp only [docsOf_append]
  simpa [docsOf] using h

/-- The buffer coming out of `__process_cug_node` is the incoming buffer with
the returned document appended to some collection. -/
theorem process_cug_node_buffer (cntrl : Controller) (i : Nat)
    (cug_id : CUGId) (m : CugMap) (buf : Buffer) (vcols : List String)
    (hov : Bool) (m' : CugMap) (b' : Buffer) (d : Doc)
    (h : process_cug_node cntrl i cug_id m buf vcols hov = .ok (m', b', d)) :
    ∃ col, b' = buf_append buf col d := by
  unfold process_cug_node at h
  dsimp only at h
  split at h
  · cases h
  · split at h
    · cases h
    · injection h with hin
      cases hin
      exact ⟨_, rfl⟩

/-- The buffer coming out of `__process_cug_edge` is the incoming buffer with
the returned document appended to some collection. -/
theorem process_cug_edge_buffer (cntrl : Controller) (j : Nat)
    (f t : CUGId) (m : CugMap) (buf : Buffer) (ecols : List String)
    (hoe : Bool) (attr : String) (ws : Option (List JsonVal)) (b' : Buffer)
    (d : Doc)
    (h : process_cug_edge cntrl j f t m buf ecols hoe attr ws =
      .ok (b', d)) :
    ∃ col, b' = buf_append buf col d := by
  unfold process_cug_edge at h
  dsimp only at h
  split at h
  · cases h
  · split at h
    · cases h
    · split at h
      · cases h
      · split at h
        · cases h
        · split at h
          · cases h
          · injection h with hin
            cases hin
            exact ⟨_, rfl⟩

/-- The node loop preserves conservation. -/
theorem cug_node_loop_conserved (cntrl : Controller) (vcols : List String)
    (hov : Bool) (nbs : Nat) (nodes : List CUGId) :
    ∀ (i : Nat) (st st' : RunState),
    cug_node_loop cntrl vcols hov nbs nodes i st = .ok st' →
    conserved st → conserved st' := by
  induction nodes with
  | nil =>
    intro i st st' h hc
    unfold cug_node_loop at h
    cases h
    exact hc
  | cons n rest ih =>
    intro i st st' h hc
    unfold cug_node_loop at h
    cases hp : process_cug_node cntrl i n st.cug_map st.adb_docs vcols hov with
    | error e => rw [hp] at h; cases h
    | ok r =>
      obtain ⟨m', b', d⟩ := r
      rw [hp] at h
      obtain ⟨col, hcol⟩ := process_cug_node_buffer cntrl i n st.cug_map
        st.adb_docs vcols hov m' b' d hp
      have hc1 : conserved
          { st with
            cug_map := m',
            adb_docs := b',
            events := st.events ++ [.procNode],
            appended := st.appended ++ [d] } := by
        unfold conserved at hc ⊢
        subst hcol
        dsimp only
        refine List.Perm.trans
          (List.Perm.append_left _ (buf_append_docsOf st.adb_docs col d)) ?_
        rw [← List.append_assoc]
        exact List.Perm.append_right [d] hc
      by_cases hb : (i % nbs == 0) = true
      · rw [hb] at h
        exact ih (i + 1) _ st' h (flushState_conserved _ hc1)
      · rw [Bool.eq_false_iff.mpr hb] at h
        exact ih (i + 1) _ st' h hc1

/-- The edge loop preserves conservation. -/
theorem cug_edge_loop_conserved (cntrl : Controller) (ecols : List String)
    (hoe : Bool) (ebs : Nat) (attr : String) (ws : Option (List JsonVal))
    (edges : List (CUGId × CUGId)) :
    ∀ (i : Nat) (st st' : RunState),
    cug_edge_loop cntrl ecols hoe ebs attr ws edges i st = .ok st' →
    conserved st → conserved st' := by
  induction edges with
  | nil =>
    intro i st st' h hc
    unfold cug_edge_loop at h
    cases h
    exact hc
  | cons e rest ih =>
    intro i st st' h hc
    obtain ⟨f, t⟩ := e
    unfold cug_edge_loop at h
    cases hp : process_cug_edge cntrl i f t st.cug_map st.adb_docs ecols hoe
        attr ws with
    | error e => rw [hp] at h; cases h
    | ok r =>
      obtain ⟨b', d⟩ := r
      rw [hp] at h
      obtain ⟨col, hcol⟩ := process_cug_edge_buffer cntrl i f t st.cug_map
        st.adb_docs ecols hoe attr ws b' d hp
      have hc1 : conserved
          { st with
            adb_docs := b',
            events := st.events ++ [.procEdge],
            appended := st.appended ++ [d] } := by
        unfold conserved at hc ⊢
        subst hcol
        dsimp only
        refine List.Perm.trans
          (List.Perm.append_left _ (buf_append_docsOf st.adb_docs col d)) ?_
        rw [← List.append_assoc]
        exact List.Perm.append_right [d] hc
      by_cases hb : (i % ebs == 0) = true
      · rw [hb] at h
        exact ih (i + 1) _ st' h (flushState_conserved _ hc1)
      · rw [Bool.eq_false_iff.mpr hb] at h
        exact ih (i + 1) _ st' h hc1

/-- Claim C9: Every `__insert_adb_docs` call submits each buffered collection's
document list to `import_bulk` once and leaves the buffer empty; over a whole
`cugraph_to_arangodb` run, the final buffer is empty and the submitted
documents are, as a multiset, exactly the documents appended — each appended
node and edge document is submitted exactly once. -/
theorem claim_C9_insert_once (buf : Buffer) (cntrl : Controller)
    (vcols ecols : List String) (nodes : List CUGId)
    (edges : List (CUGId × CUGId)) (ws : Option (List JsonVal))
    (bs : Option Nat) (attr : String) (st : RunState)
    (h : cugraph_to_arangodb cntrl vcols ecols nodes edges ws bs attr =
      .ok st) :
    insert_adb_docs buf = (buf, []) ∧
    st.adb_docs = [] ∧
    List.Perm (docsOf st.subs) st.appended := by
  refine ⟨insert_adb_docs_spec buf, ?_⟩
  unfold cugraph_to_arangodb at h
  dsimp only at h
  cases h1 : cug_node_loop cntrl vcols (vcols.length == 1)
      (batchOr bs nodes.length) nodes 1
      { cug_map := CugMap.empty, adb_docs := [], subs := [], events := [],
        appended := [] } with
  | error e => rw [h1] at h; cases h
  | ok st1 =>
    rw [h1] at h
    dsimp only at h
    cases h2 : cug_edge_loop cntrl ecols (ecols.length == 1)
        (batchOr bs edges.length) attr ws edges 0 (flushState st1) with
    | error e => rw [h2] at h; cases h
    | ok st3 =>
      rw [h2] at h
      injection h with h3
      have hc0 : conserved
          { cug_map := CugMap.empty, adb_docs := [], subs := [],
            events := [], appended := [] } := by
        unfold conserved
        simp [docsOf]
      have hc1 := cug_node_loop_conserved cntrl vcols (vcols.length == 1)
        (batchOr bs nodes.length) nodes 1 _ st1 h1 hc0
      have hc2 := cug_edge_loop_conserved cntrl ecols (ecols.length == 1)
        (batchOr bs edges.length) attr ws edges 0 _ st3 h2
        (flushState_conserved st1 hc1)
      have hc3 := flushState_conserved st3 hc2
      subst h3
      rw [flushState_eq]
      refine ⟨rfl, ?_⟩
      unfold conserved at hc3
      rw [flushState_eq] at hc3
      simpa [docsOf] using hc3

/-- Witness for C9 on a concrete one-node run. -/
theorem claim_C9_insert_once_witness :
    insert_adb_docs [("V", [[("_key", JsonVal.str "1")]])] =
      ([("V", [[("_key", JsonVal.str "1")]])], []) ∧
    ({ cug_map := CugMap.empty.update (CUGId.num 1) "V/1", adb_docs := [],
       subs := [("V", [[("_id", JsonVal.str "V/1"),
         ("_key", JsonVal.str "1")]])],
       events := [.procNode,
         .flushCall [("V", [[("_id", JsonVal.str "V/1"),
           ("_key", JsonVal.str "1")]])],
         .flushCall [], .flushCall []],
       appended := [[("_id", JsonVal.str "V/1"), ("_key", JsonVal.str "1")]]
       } : RunState).adb_docs = [] ∧
    List.Perm
      (docsOf [("V", [[("_id", JsonVal.str "V/1"),
        ("_key", JsonVal.str "1")]])])
      [[("_id", JsonVal.str "V/1"), ("_key", JsonVal.str "1")]] :=
  claim_C9_insert_once [("V", [[("_key", JsonVal.str "1")]])]
    defaultController ["V"] ["E"] [CUGId.num 1] [] none none "weights"
    { cug_map := CugMap.empty.update (CUGId.num 1) "V/1", adb_docs := [],
      subs := [("V", [[("_id", JsonVal.str "V/1"),
        ("_key", JsonVal.str "1")]])],
      events := [.procNode,
        .flushCall [("V", [[("_id", JsonVal.str "V/1"),
          ("_key", JsonVal.str "1")]])],
        .flushCall [], .flushCall []],
      appended := [[("_id", JsonVal.str "V/1"), ("_key", JsonVal.str "1")]] }
    rfl

/-- Claim C3: Evaluation of `cugraph_to_arangodb` with `batch_size = 2`, two
nodes and three edges (one vertex and one edge collection, unweighted).  The
node loop counts from 1 (`enumerate(cug_nodes, 1)`), so its in-loop flush
lands after node 2 — a positive multiple of the batch size, as the claim
states.  The edge loop counts from 0 (`range(len(cug_edges))`), so its first
in-loop flush submits an edge batch after a single processed edge (and the
next after edge 3): the `flushCall` right after one `procEdge` below imports
one document, though 1 is not a positive multiple of 2. -/
theorem claim_C3_edge_batch_off_by_one :
    (cugraph_to_arangodb defaultController ["V"] ["E"]
        [CUGId.num 1, CUGId.num 2]
        [(CUGId.num 1, CUGId.num 2), (CUGId.num 2, CUGId.num 1),
         (CUGId.num 1, CUGId.num 1)]
        none (some 2) "weights").map RunState.events =
      .ok [.procNode, .procNode,
        .flushCall [("V",
          [[("_id", JsonVal.str "V/1"), ("_key", JsonVal.str "1")],
           [("_id", JsonVal.str "V/2"), ("_key", JsonVal.str "2")]])],
        .flushCall [],
        .procEdge,
        .flushCall [("E",
          [[("_key", JsonVal.str "0"), ("_from", JsonVal.str "V/1"),
            ("_to", JsonVal.str "V/2")]])],
        .procEdge, .procEdge,
        .flushCall [("E",
          [[("_key", JsonVal.str "1"), ("_from", JsonVal.str "V/2"),
            ("_to", JsonVal.str "V/1")],
           [("_key", JsonVal.str "2"), ("_from", JsonVal.str "V/1"),
            ("_to", JsonVal.str "V/1")]])],
        .flushCall []] := by
  rfl

/-- Claim C8: Evaluation showing that `arangodb_collections_to_cugraph` does
not forward `default_edge_attr_value`: on a database with one vertex and one
attribute-less edge, calling it with default value `5` yields weight `0`
(the callee's default), while `arangodb_to_cugraph` on the equivalent
metagraph with default value `5` yields weight `5` — so the two graphs
differ. -/
theorem claim_C8_default_value_dropped :
    arangodb_collections_to_cugraph defaultController
        (fun c => if c = "V" then [[("_id", JsonVal.str "V/1")]]
          else [[("_id", JsonVal.str "E/1"), ("_from", JsonVal.str "V/1"),
                 ("_to", JsonVal.str "V/1")]])
        ["V"] ["E"] "weights" 5 =
      .ok { edges := [("V/1", "V/1", JsonVal.num 0)],
            edgeAttr := "weights" } ∧
    arangodb_to_cugraph defaultController
        (fun c => if c = "V" then [[("_id", JsonVal.str "V/1")]]
          else [[("_id", JsonVal.str "E/1"), ("_from", JsonVal.str "V/1"),
                 ("_to", JsonVal.str "V/1")]])
        ⟨["V"], ["E"]⟩ "weights" 5 =
      .ok { edges := [("V/1", "V/1", JsonVal.num 5)],
            edgeAttr := "weights" } ∧
    ({ edges := [("V/1", "V/1", JsonVal.num 0)],
       edgeAttr := "weights" } : CugGraph) ≠
      { edges := [("V/1", "V/1", JsonVal.num 5)], edgeAttr := "weights" } :=
  ⟨rfl, rfl, by decide⟩

end ADBCUG
